import Mathlib

/-!
Formal model of the AIWikiQuizGeneratorBackend core: the Wikipedia article
extraction heuristics (WikipediaScraper) and the quiz generation pipeline
(AdvancedQuizGenerator) from app/main.py, with the equivalent copies in
app/utils/scraper.py and app/utils/quiz_generator.py.

Modelling conventions:
- Python strings are Lean String values; character-level operations go
  through String.toList. Python str.strip is modelled by pyStrip over the
  ASCII whitespace set; python slicing s[:n] by pyTake.
- The regular expression sub of citation markers (backslash-bracket, one or
  more digits, backslash-bracket closed) is implemented as the scanner
  stripCiteGo with the same leftmost, non-overlapping semantics.
- Exceptions are modelled with Except Unit: a Python statement that can
  raise becomes a value in Except Unit, and a try/except block becomes a
  match on that value.
- The external model call (google.generativeai) together with response
  cleaning and json.loads is abstracted as one input of type
  Except Unit JVal: Except.error stands for a transport error or
  unparseable text, Except.ok v for a successfully parsed JSON value v.
  Everything downstream of that boundary is modelled from the source.
-/

/-! ## Python string primitives -/

/-- Whitespace characters removed by python str.strip. -/
def isPySpace (c : Char) : Bool :=
  c == ' ' || c == '\t' || c == '\n' || c == '\r' || c == '\x0b' || c == '\x0c'

/-- List-level model of python str.strip. -/
def pyStripL (l : List Char) : List Char :=
  ((l.dropWhile isPySpace).reverse.dropWhile isPySpace).reverse

/-- Python str.strip on strings. -/
def pyStrip (s : String) : String := String.mk (pyStripL s.toList)

/-- Truthiness test for a stripped python string: true when s.strip() is empty. -/
def strBlank (s : String) : Bool := (pyStripL s.toList).isEmpty

/-- Python slicing s[:n] (hard character cut). -/
def pyTake (n : Nat) (s : String) : String := String.mk (s.toList.take n)

/-- Python str.lower restricted to ASCII case mapping. -/
def lowerS (s : String) : String := String.mk (s.toList.map Char.toLower)

/-- Substring containment, modelling the python expression sub in s. -/
def containsSub (pat l : List Char) : Bool :=
  match l with
  | [] => pat.isEmpty
  | _ :: rest => (pat.isPrefixOf l) || containsSub pat rest

/-- Scanner for the citation-marker removal re.sub: in normal mode (second
argument none) characters are copied; after an opening bracket the digits
seen so far are buffered, and a closing bracket after at least one digit
drops the whole marker, any other character flushes the buffer. -/
def stripCiteGo : List Char → Option (List Char) → List Char
  | [], none => []
  | [], some ds => '[' :: ds.reverse
  | c :: rest, none =>
      if c == '[' then stripCiteGo rest (some [])
      else c :: stripCiteGo rest none
  | c :: rest, some ds =>
      if c.isDigit then stripCiteGo rest (some (c :: ds))
      else if c == ']' && !ds.isEmpty then stripCiteGo rest none
      else '[' :: ds.reverse ++
        (if c == '[' then stripCiteGo rest (some [])
         else c :: stripCiteGo rest none)

/-- Removal of wikipedia citation markers from a string. -/
def stripCitations (s : String) : String := String.mk (stripCiteGo s.toList none)

/-! ## URL validation (WikipediaScraper._is_valid_wikipedia_url) -/

/-- Boolean test that a pattern list is a prefix of another list. -/
def listStartsWith : List Char → List Char → Bool
  | [], _ => true
  | _ :: _, [] => false
  | p :: ps, c :: cs => p == c && listStartsWith ps cs

/-- Characters of the literal https:// head of the URL pattern. -/
def urlHead : List Char := ['h', 't', 't', 'p', 's', ':', '/', '/']

/-- Characters of the literal .wikipedia.org/wiki/ part of the URL pattern. -/
def wikiMid : List Char :=
  ['.', 'w', 'i', 'k', 'i', 'p', 'e', 'd', 'i', 'a', '.', 'o', 'r', 'g', '/', 'w', 'i', 'k', 'i', '/']

/-- Check for the final path segment: at least one character, none of them a slash. -/
def segOK (seg : List Char) : Bool := !seg.isEmpty && seg.all (fun c => c != '/')

/-- Model of WikipediaScraper._is_valid_wikipedia_url: re.match of the pattern
anchored https colon slash slash, two lowercase letters, literal
.wikipedia.org/wiki/, then one or more non-slash characters up to the end.
The python dollar anchor also accepts a match ending just before a final
newline, but since the newline itself is a non-slash character that case is
absorbed by the non-slash segment, so the accepted language is exactly the
strictly anchored one. -/
def _is_valid_wikipedia_url (url : String) : Bool :=
  listStartsWith urlHead url.toList &&
    (match url.toList.drop 8 with
     | c1 :: c2 :: rest =>
         c1.isLower && c2.isLower && listStartsWith wikiMid rest && segOK (rest.drop 20)
     | _ => false)

/-! ## HTML document model (BeautifulSoup boundary)

An HTML document is a tree of element and text nodes. Only the pieces of
the DOM the scraper touches are modelled: tag name, the id attribute, the
class attribute (as a list of class names), and children. The find and
find_all operations search the descendants of a node in document order
(pre-order), as BeautifulSoup does. -/

inductive HNode where
  | text (s : String) : HNode
  | elem (tag : String) (idAttr : Option String) (classes : List String) (children : List HNode) : HNode

mutual
/-- All descendants of a node in document order, the node itself excluded. -/
def nodeDescs : HNode → List HNode
  | .text _ => []
  | .elem _ _ _ cs => listDescs cs
def listDescs : List HNode → List HNode
  | [] => []
  | c :: rest => c :: (nodeDescs c ++ listDescs rest)
end

mutual
/-- Concatenated text of a node, modelling get_text with empty separator. -/
def getTextN : HNode → String
  | .text s => s
  | .elem _ _ _ cs => getTextL cs
def getTextL : List HNode → String
  | [] => ""
  | c :: rest => getTextN c ++ getTextL rest
end

mutual
/-- Removal of every descendant element satisfying p, modelling find_all
followed by decompose on each match. -/
def pruneN (p : HNode → Bool) : HNode → HNode
  | .text s => .text s
  | .elem t i cls cs => .elem t i cls (pruneL p cs)
def pruneL (p : HNode → Bool) : List HNode → List HNode
  | [] => []
  | c :: rest =>
      if p c then pruneL p rest
      else pruneN p c :: pruneL p rest
end

/-- Test that a node is an element whose tag name is in the given list. -/
def tagIn (tags : List String) : HNode → Bool
  | .elem t _ _ _ => tags.contains t
  | .text _ => false

/-- Model of soup.find_all with a list of tag names: matching descendant
elements in document order. -/
def findAllTags (tags : List String) (n : HNode) : List HNode :=
  (nodeDescs n).filter (tagIn tags)

/-- Test for the main content container div. -/
def isContentDiv : HNode → Bool
  | .elem t i _ _ => t == "div" && i == some "mw-content-text"
  | .text _ => false

/-- Model of soup.find of the div with id mw-content-text. -/
def find_content (doc : HNode) : Option HNode :=
  (nodeDescs doc).find? isContentDiv

/-- Python space-join of a list of strings. -/
def joinSp (parts : List String) : String := String.intercalate " " parts

/-- Model of the list comprehension collecting the stripped nonempty text of
each paragraph: filter by truthiness of the stripped text, then map to it. -/
def paraTexts (ps : List HNode) : List String :=
  (ps.filter (fun p => !(strBlank (getTextN p)))).map (fun p => pyStrip (getTextN p))

/-- Model of WikipediaScraper._extract_summary. -/
def _extract_summary (doc : HNode) : String :=
  match find_content doc with
  | none => ""
  | some content =>
      let paragraphs := (findAllTags ["p"] content).take 3
      pyTake 1000 (stripCitations (joinSp (paraTexts paragraphs)))

/-- Names passed to find_all by _extract_full_content. The second and third
entries are CSS-selector syntax, but find_all treats each entry as a literal
tag name. -/
def scrapeRemoveTags : List String := ["table", "div.navbox", "div.reflist"]

/-- Model of WikipediaScraper._extract_full_content. -/
def _extract_full_content (doc : HNode) : String :=
  match find_content doc with
  | none => ""
  | some content =>
      let cleaned := pruneN (tagIn scrapeRemoveTags) content
      pyTake 8000 (stripCitations (joinSp (paraTexts (findAllTags ["p"] cleaned))))

/-- Heading keywords whose presence (case-insensitive substring) excludes a
heading from the sections list. -/
def skipSections : List String := ["contents", "references", "external links", "see also", "notes"]

/-- Test whether a lowercased heading text contains one of the skip keywords. -/
def skipHeading (ht : String) : Bool :=
  skipSections.any (fun sk => containsSub sk.toList ht.toList)

/-- Model of WikipediaScraper._extract_sections: iterate over all h2 and h3
elements of the whole document, appending the stripped text of each heading
that does not contain a skip keyword, then keep the first 10. -/
def _extract_sections (doc : HNode) : List String :=
  ((findAllTags ["h2", "h3"] doc).foldl
    (fun acc h =>
      if skipHeading (lowerS (pyStrip (getTextN h))) then acc
      else acc ++ [pyStrip (getTextN h)]) []).take 10

/-! ## Specification-side extraction definitions (for refinement claims) -/

/-- Summary computation as worded in the spec: first 3 paragraph elements of
the main content container, their trimmed texts joined with single spaces
(empty ones contributing nothing), citation markers stripped, truncated to
1000 characters. -/
def specSummary (doc : HNode) : String :=
  match find_content doc with
  | none => ""
  | some content =>
      pyTake 1000 (stripCitations (joinSp
        ((((findAllTags ["p"] content).take 3).map (fun p => pyStrip (getTextN p))).filter
          (fun s => !s.toList.isEmpty))))

/-- Test for the elements the spec says full-content extraction removes:
table elements and navigation-box or reference-box elements. -/
def specNavRefBox : HNode → Bool
  | .elem t _ cls _ =>
      t == "table" || (t == "div" && (cls.contains "navbox" || cls.contains "reflist"))
  | .text _ => false

/-- Modelled from the spec: full content with table elements and
navigation-box and reference-box elements (div elements whose class list
contains navbox or reflist) removed before collecting paragraphs. The
source instead passes div.navbox and div.reflist as tag names to find_all,
which match no element, so only tables are removed there. -/
def spec_full_content (doc : HNode) : String :=
  match find_content doc with
  | none => ""
  | some content =>
      let cleaned := pruneN specNavRefBox content
      pyTake 8000 (stripCitations (joinSp (paraTexts (findAllTags ["p"] cleaned))))

/-- Sections computation as worded in the spec: level-2 and level-3 heading
texts in document order, excluding those containing a skip keyword
case-insensitively, keeping the first 10 survivors. -/
def specSections (doc : HNode) : List String :=
  (((findAllTags ["h2", "h3"] doc).map (fun h => pyStrip (getTextN h))).filter
    (fun s => !(skipHeading (lowerS s)))).take 10

/-! ## Concrete documents used in scenarios -/

/-- Document whose single content paragraph carries citation markers. -/
def sumDoc : HNode :=
  .elem "html" none []
    [.elem "div" (some "mw-content-text") []
      [.elem "p" none [] [.text "Python is great.[12] It is popular.[3]"]]]

/-- Document whose content container holds a navigation box with a paragraph
inside it, next to a normal paragraph. -/
def navDoc : HNode :=
  .elem "html" none []
    [.elem "div" (some "mw-content-text") []
      [.elem "div" none ["navbox"] [.elem "p" none [] [.text "NAV"]],
       .elem "p" none [] [.text "Hello"]]]

/-- Document with no main content container but with a page-chrome heading. -/
def chromeDoc : HNode :=
  .elem "html" none []
    [.elem "h2" none [] [.text "News"],
     .elem "p" none [] [.text "outside the container"]]

/-! ## JSON values and python dict and list semantics

JVal models the values json.loads can produce. Objects are ordered
association lists, matching python dict insertion-order semantics; json
never produces duplicate keys, and lookup returns the first binding. -/

inductive JVal where
  | jnull
  | jbool (b : Bool)
  | jnum (n : Int)
  | jstr (s : String)
  | jarr (xs : List JVal)
  | jobj (fs : List (String × JVal))

/-- Dict read access, first binding for the key. -/
def lookupF : List (String × JVal) → String → Option JVal
  | [], _ => none
  | (k0, v0) :: rest, key => if k0 = key then some v0 else lookupF rest key

/-- Dict write access: replace the value at an existing key in place, or
append a new binding at the end, as python dict assignment does. -/
def setF : List (String × JVal) → String → JVal → List (String × JVal)
  | [], k, v => [(k, v)]
  | (k0, v0) :: rest, k, v =>
      if k0 = k then (k0, v) :: rest else (k0, v0) :: setF rest k v

/-- Python truthiness of a JSON value. -/
def truthy : JVal → Bool
  | .jnull => false
  | .jbool b => b
  | .jnum n => n != 0
  | .jstr s => !s.toList.isEmpty
  | .jarr xs => !xs.isEmpty
  | .jobj fs => !fs.isEmpty

/-- Python len of a JSON value: defined for strings, lists and dicts, a
TypeError (modelled as Except.error) otherwise. -/
def pyLen : JVal → Except Unit Nat
  | .jstr s => .ok s.toList.length
  | .jarr xs => .ok xs.length
  | .jobj fs => .ok fs.length
  | _ => .error ()

/-! ## Fallback quiz (AdvancedQuizGenerator._generate_smart_fallback_quiz) -/

/-- First base question of the fallback quiz. -/
def fallbackQ1 (t : String) : JVal :=
  .jobj
    [("question", .jstr ("What is the primary focus or subject of the Wikipedia article about " ++ t ++ "?")),
     ("options", .jobj
       [("A", .jstr ("The main topic: " ++ t ++ " and its significance")),
        ("B", .jstr "A completely unrelated scientific concept"),
        ("C", .jstr "Historical events from a different time period"),
        ("D", .jstr "Fictional stories and characters")]),
     ("correct_answer", .jstr "A"),
     ("explanation", .jstr ("The article specifically focuses on " ++ t ++ " and provides detailed information about it.")),
     ("difficulty", .jstr "easy")]

/-- Second base question of the fallback quiz. -/
def fallbackQ2 (t : String) : JVal :=
  .jobj
    [("question", .jstr ("What type of information would you expect to find in this Wikipedia article about " ++ t ++ "?")),
     ("options", .jobj
       [("A", .jstr "Comprehensive facts, history, and context about the subject"),
        ("B", .jstr "Personal opinions and anecdotes"),
        ("C", .jstr "Advertising and promotional content"),
        ("D", .jstr "Fictional narratives and stories")]),
     ("correct_answer", .jstr "A"),
     ("explanation", .jstr "Wikipedia articles provide factual, well-researched information with proper citations."),
     ("difficulty", .jstr "easy")]

/-- Third base question of the fallback quiz. -/
def fallbackQ3 (t : String) : JVal :=
  .jobj
    [("question", .jstr ("How does Wikipedia ensure the accuracy of information about topics like " ++ t ++ "?")),
     ("options", .jobj
       [("A", .jstr "Through community editing, citations, and reliable sources"),
        ("B", .jstr "Government verification and approval"),
        ("C", .jstr "Paid expert reviews only"),
        ("D", .jstr "Automatic computer generation")]),
     ("correct_answer", .jstr "A"),
     ("explanation", .jstr "Wikipedia uses collaborative editing and requires reliable sources to maintain accuracy."),
     ("difficulty", .jstr "medium")]

/-- Fourth base question of the fallback quiz. -/
def fallbackQ4 (t : String) : JVal :=
  .jobj
    [("question", .jstr ("Why might " ++ t ++ " be considered an important topic for a Wikipedia article?")),
     ("options", .jobj
       [("A", .jstr "It represents significant knowledge worth documenting and sharing"),
        ("B", .jstr "It is trending on social media"),
        ("C", .jstr "It was randomly selected"),
        ("D", .jstr "It supports commercial interests")]),
     ("correct_answer", .jstr "A"),
     ("explanation", .jstr "Wikipedia documents notable topics that have verifiable significance and reliable sources."),
     ("difficulty", .jstr "medium")]

/-- Fifth base question of the fallback quiz. -/
def fallbackQ5 (t : String) : JVal :=
  .jobj
    [("question", .jstr ("What makes Wikipedia\x27s coverage of " ++ t ++ " valuable for learners and researchers?")),
     ("options", .jobj
       [("A", .jstr "It provides a comprehensive starting point with references for deeper exploration"),
        ("B", .jstr "It contains all possible information on the topic"),
        ("C", .jstr "It replaces the need for other information sources"),
        ("D", .jstr "It offers personalized learning paths")]),
     ("correct_answer", .jstr "A"),
     ("explanation", .jstr "Wikipedia offers overviews with citations that help guide further research and learning."),
     ("difficulty", .jstr "hard")]

/-- The base_questions list of the fallback generator. -/
def fallbackQuestions (t : String) : List JVal :=
  [fallbackQ1 t, fallbackQ2 t, fallbackQ3 t, fallbackQ4 t, fallbackQ5 t]

/-- Model of AdvancedQuizGenerator._generate_smart_fallback_quiz. -/
def _generate_smart_fallback_quiz (t : String) : JVal :=
  .jobj
    [("questions", .jarr (fallbackQuestions t)),
     ("related_topics", .jarr [.jstr t, .jstr "Online Encyclopedia", .jstr "Knowledge Base"])]

/-! ## Validation and repair (AdvancedQuizGenerator._validate_quiz_structure)

Per python semantics, a question that is not a dict, or whose question or
explanation value is not a string, raises (AttributeError or TypeError)
inside the validation loop; the exception is caught further up and resolved
to the fallback quiz. Values of correct_answer and difficulty of any type
only go through list membership tests, which never raise. An options value
of any string, list or dict type passes as long as its len is 4. -/

/-- Placeholder installed for a missing or blank question text. -/
def questionPlaceholder (t : String) : JVal :=
  .jstr ("What is a key fact about " ++ t ++ "?")

/-- Placeholder installed for a missing or blank explanation. -/
def explanationPlaceholder (t : String) : JVal :=
  .jstr ("This is correct based on the Wikipedia article about " ++ t ++ ".")

/-- Placeholder option set installed when options is missing or its len is not 4. -/
def defaultOptions (t : String) : JVal :=
  .jobj
    [("A", .jstr ("A key fact about " ++ t)),
     ("B", .jstr "An incorrect alternative"),
     ("C", .jstr "Another incorrect option"),
     ("D", .jstr "Final incorrect option")]

/-- Default related topics installed when related_topics is missing or falsy. -/
def defaultTopics (t : String) : JVal :=
  .jarr [.jstr t, .jstr "Knowledge", .jstr "Research"]

/-- Repair of the question field of one question dict. -/
def fixQField (t : String) (fs : List (String × JVal)) : Except Unit (List (String × JVal)) :=
  match lookupF fs "question" with
  | none => .ok (setF fs "question" (questionPlaceholder t))
  | some (.jstr s) =>
      if strBlank s then .ok (setF fs "question" (questionPlaceholder t)) else .ok fs
  | some _ => .error ()

/-- Repair of the options field of one question dict. -/
def fixOField (t : String) (fs : List (String × JVal)) : Except Unit (List (String × JVal)) :=
  match lookupF fs "options" with
  | none => .ok (setF fs "options" (defaultOptions t))
  | some ov =>
      match pyLen ov with
      | .error e => .error e
      | .ok n => if n = 4 then .ok fs else .ok (setF fs "options" (defaultOptions t))

/-- Field check: correct_answer is present and one of the four letters.
This is exactly the membership test of the source conditional; a value of
any other type fails the test without raising. -/
def caOK (fs : List (String × JVal)) : Bool :=
  match lookupF fs "correct_answer" with
  | some (.jstr a) => a == "A" || a == "B" || a == "C" || a == "D"
  | _ => false

/-- Repair of the correct_answer field of one question dict: keep it when
present and among the four letters, else install A. -/
def fixCAField (fs : List (String × JVal)) : List (String × JVal) :=
  if caOK fs then fs else setF fs "correct_answer" (.jstr "A")

/-- Repair of the explanation field of one question dict. -/
def fixEField (t : String) (fs : List (String × JVal)) : Except Unit (List (String × JVal)) :=
  match lookupF fs "explanation" with
  | none => .ok (setF fs "explanation" (explanationPlaceholder t))
  | some (.jstr s) =>
      if strBlank s then .ok (setF fs "explanation" (explanationPlaceholder t)) else .ok fs
  | some _ => .error ()

/-- Field check: the difficulty is present and one of the three levels,
exactly the membership test of the source conditional. -/
def dOK (fs : List (String × JVal)) : Bool :=
  match lookupF fs "difficulty" with
  | some (.jstr d) => d == "easy" || d == "medium" || d == "hard"
  | _ => false

/-- Repair of the difficulty field of one question dict: keep a valid level,
else default by the parity of the question index. -/
def fixDField (i : Nat) (fs : List (String × JVal)) : List (String × JVal) :=
  if dOK fs then fs else setF fs "difficulty" (.jstr (if i % 2 = 0 then "medium" else "easy"))

/-- Repair of one question at index i: the five field repairs in source
order; a non-dict question raises. -/
def fixQuestion (t : String) (i : Nat) : JVal → Except Unit JVal
  | .jobj fs =>
      match fixQField t fs with
      | .error e => .error e
      | .ok fs1 =>
          match fixOField t fs1 with
          | .error e => .error e
          | .ok fs2 =>
              match fixEField t (fixCAField fs2) with
              | .error e => .error e
              | .ok fs4 => .ok (.jobj (fixDField i fs4))
  | _ => .error ()

/-- Repair of the question list, carrying the enumerate index. -/
def fixQuestions (t : String) (i : Nat) : List JVal → Except Unit (List JVal)
  | [] => .ok []
  | q :: rest =>
      match fixQuestion t i q with
      | .error e => .error e
      | .ok q2 =>
          match fixQuestions t (i + 1) rest with
          | .error e => .error e
          | .ok rest2 => .ok (q2 :: rest2)

/-- Repair of related_topics: keep a truthy value, else install the default. -/
def relFix (t : String) (fs : List (String × JVal)) : List (String × JVal) :=
  match lookupF fs "related_topics" with
  | some rv => if truthy rv then fs else setF fs "related_topics" (defaultTopics t)
  | none => setF fs "related_topics" (defaultTopics t)

/-- Model of AdvancedQuizGenerator._validate_quiz_structure. A missing
questions key is first initialised to an empty list; iterating a nonempty
string or dict value yields string items, which raise in the loop body;
iterating a non-sized value raises immediately. -/
def _validate_quiz_structure (t : String) : JVal → Except Unit JVal
  | .jobj fs =>
      let fs0 := if (lookupF fs "questions").isSome then fs else setF fs "questions" (.jarr [])
      match lookupF fs0 "questions" with
      | some (.jarr qs) =>
          (match fixQuestions t 0 qs with
           | .error e => .error e
           | .ok qs2 => .ok (.jobj (relFix t (setF fs0 "questions" (.jarr qs2)))))
      | some (.jstr s) => if s.toList.isEmpty then .ok (.jobj (relFix t fs0)) else .error ()
      | some (.jobj gs) => if gs.isEmpty then .ok (.jobj (relFix t fs0)) else .error ()
      | some _ => .error ()
      | none => .error ()
  | _ => .error ()

/-! ## Parsing stage (AdvancedQuizGenerator._parse_quiz_data) -/

/-- The question-count repair: extend the model question list with a slice
of the fallback questions, slice bound 5 minus the current count. -/
def extend_questions (t : String) (qs : List JVal) : List JVal :=
  qs ++ (fallbackQuestions t).take (5 - qs.length)

/-- Body of _parse_quiz_data on an already json-parsed value: raise when
questions is missing or falsy, extend a list of fewer than 3 questions from
the fallback set, then validate. A non-dict top level raises, as does
calling len or extend on an unsuitable questions value. -/
def _parse_quiz_attempt (t : String) : JVal → Except Unit JVal
  | .jobj fs =>
      match lookupF fs "questions" with
      | none => .error ()
      | some qv =>
          if truthy qv then
            match pyLen qv with
            | .error e => .error e
            | .ok n =>
                if n < 3 then
                  match qv with
                  | .jarr qs =>
                      _validate_quiz_structure t
                        (.jobj (setF fs "questions" (.jarr (extend_questions t qs))))
                  | _ => .error ()
                else _validate_quiz_structure t (.jobj fs)
          else .error ()
  | _ => .error ()

/-- Model of AdvancedQuizGenerator._parse_quiz_data including its own
try/except: any failure resolves to the fallback quiz. -/
def _parse_quiz_data (t : String) (v : JVal) : JVal :=
  match _parse_quiz_attempt t v with
  | .ok q => q
  | .error _ => _generate_smart_fallback_quiz t

/-! ## Top level (AdvancedQuizGenerator.generate_quiz) -/

/-- Python truthiness of the configured api key. -/
def keyTruthy : Option String → Bool
  | none => false
  | some s => !s.toList.isEmpty

/-- The try block of generate_quiz: without a truthy api key return the
fallback immediately; raise on empty or short (stripped length below 100)
content; then consume the model result, whose transport errors and json
parse failures appear as Except.error. -/
def generate_quiz_body (key : Option String) (modelResult : Except Unit JVal)
    (content title : String) : Except Unit JVal :=
  if keyTruthy key = false then .ok (_generate_smart_fallback_quiz title)
  else if content.toList.isEmpty || (pyStripL content.toList).length < 100 then .error ()
  else
    match modelResult with
    | .error e => .error e
    | .ok v => .ok (_parse_quiz_data title v)

/-- Model of AdvancedQuizGenerator.generate_quiz: the try block together
with the except handler that resolves every failure to the fallback quiz. -/
def generate_quiz (key : Option String) (modelResult : Except Unit JVal)
    (content title : String) : Except Unit JVal :=
  match generate_quiz_body key modelResult content title with
  | .ok q => .ok q
  | .error _ => .ok (_generate_smart_fallback_quiz title)

/-! ## Structural validity predicates -/

/-- The only check the source applies to an options value: its len is 4. -/
def validOptionsLen : JVal → Bool
  | .jstr s => s.toList.length == 4
  | .jarr xs => xs.length == 4
  | .jobj fs => fs.length == 4
  | _ => false

/-- Field check: the question text is a string with nonempty strip. -/
def qTextOK (fs : List (String × JVal)) : Bool :=
  match lookupF fs "question" with
  | some (.jstr s) => !(strBlank s)
  | _ => false

/-- Field check: the options value is present and has len 4. -/
def oLenOK (fs : List (String × JVal)) : Bool :=
  match lookupF fs "options" with
  | some ov => validOptionsLen ov
  | _ => false

/-- Field check: the explanation is a string with nonempty strip. -/
def eTextOK (fs : List (String × JVal)) : Bool :=
  match lookupF fs "explanation" with
  | some (.jstr s) => !(strBlank s)
  | _ => false

/-- Per-question invariant actually guaranteed by the repair stage. -/
def codeValidQuestion (q : JVal) : Bool :=
  match q with
  | .jobj fs => qTextOK fs && oLenOK fs && caOK fs && eTextOK fs && dOK fs
  | _ => false

/-- Quiz invariant actually guaranteed by the pipeline: at least 3
questions, each satisfying codeValidQuestion, and a truthy related_topics
value. -/
def codeValidQuiz (v : JVal) : Bool :=
  match v with
  | .jobj fs =>
      (match lookupF fs "questions" with
       | some (.jarr qs) => decide (3 ≤ qs.length) && qs.all codeValidQuestion
       | _ => false) &&
      (match lookupF fs "related_topics" with
       | some rv => truthy rv
       | none => false)
  | _ => false

/-- Options invariant as the specification words it: a mapping with exactly
the keys A, B, C, D in order, every value a nonempty string. -/
def specValidOptions : JVal → Bool
  | .jobj fs =>
      fs.map Prod.fst == ["A", "B", "C", "D"] &&
        fs.all (fun kv => match kv.2 with | .jstr s => !s.toList.isEmpty | _ => false)
  | _ => false

/-- Field check: the options value satisfies the spec-level options invariant. -/
def oSpecOK (fs : List (String × JVal)) : Bool :=
  match lookupF fs "options" with
  | some ov => specValidOptions ov
  | _ => false

/-- Per-question invariant as the specification words it. -/
def specValidQuestion (q : JVal) : Bool :=
  match q with
  | .jobj fs => qTextOK fs && oSpecOK fs && caOK fs && eTextOK fs && dOK fs
  | _ => false

/-- Full quiz invariant as the specification words it. -/
def specValidQuiz (v : JVal) : Bool :=
  match v with
  | .jobj fs =>
      (match lookupF fs "questions" with
       | some (.jarr qs) => decide (3 ≤ qs.length) && qs.all specValidQuestion
       | _ => false) &&
      (match lookupF fs "related_topics" with
       | some (.jarr ts) =>
           !ts.isEmpty && ts.all (fun x => match x with | .jstr _ => true | _ => false)
       | _ => false)
  | _ => false

/-- The invariant list exactly as claim C2 states it: at least 3 questions,
each with exactly 4 options keyed A, B, C, D, correct_answer among A to D,
difficulty among the three levels, and related_topics with at least one
element. -/
def claimC2Inv (v : JVal) : Bool :=
  match v with
  | .jobj fs =>
      (match lookupF fs "questions" with
       | some (.jarr qs) =>
           decide (3 ≤ qs.length) && qs.all (fun q =>
             match q with
             | .jobj qfs =>
                 (match lookupF qfs "options" with
                  | some (.jobj os) =>
                      os.length == 4 &&
                        (["A", "B", "C", "D"].all (fun k => (lookupF os k).isSome))
                  | _ => false) &&
                 (match lookupF qfs "correct_answer" with
                  | some (.jstr a) => a == "A" || a == "B" || a == "C" || a == "D"
                  | _ => false) &&
                 (match lookupF qfs "difficulty" with
                  | some (.jstr d) => d == "easy" || d == "medium" || d == "hard"
                  | _ => false)
             | _ => false)
       | _ => false) &&
      (match lookupF fs "related_topics" with
       | some (.jarr ts) => !ts.isEmpty
       | _ => false)
  | _ => false

/-! ## Concrete quiz inputs for counterexamples and witnesses -/

/-- A fully valid model question used in witnesses. -/
def sampleQuestion (qt : String) : JVal :=
  .jobj
    [("question", .jstr qt),
     ("options", .jobj
       [("A", .jstr "Alpha"), ("B", .jstr "Beta"), ("C", .jstr "Gamma"), ("D", .jstr "Delta")]),
     ("correct_answer", .jstr "A"),
     ("explanation", .jstr "Stated in the article."),
     ("difficulty", .jstr "easy")]

/-- A question whose options mapping has 4 entries but keys W, X, Y, Z. -/
def oddKeysQuestion : JVal :=
  .jobj
    [("question", .jstr "Which key set does this use?"),
     ("options", .jobj
       [("W", .jstr "first"), ("X", .jstr "second"), ("Y", .jstr "third"), ("Z", .jstr "fourth")]),
     ("correct_answer", .jstr "A"),
     ("explanation", .jstr "None of the labels A to D occur."),
     ("difficulty", .jstr "hard")]

/-- Parsed model output with 3 questions, one of them with non A to D option
keys, and a truthy non-list related_topics value. -/
def cexParsed : JVal :=
  .jobj
    [("questions", .jarr [sampleQuestion "First?", sampleQuestion "Second?", oddKeysQuestion]),
     ("related_topics", .jnum 5)]

/-- Content long enough to pass the 100-character threshold. -/
def cexContent : String := String.mk (List.replicate 120 'a')

/-! ## Helper lemmas -/

theorem filter_map_swap {α β : Type} (f : α → β) (q : β → Bool) (l : List α) :
    (l.filter (fun a => q (f a))).map f = (l.map f).filter q := by
  induction l with
  | nil => rfl
  | cons a rest ih =>
    by_cases h : q (f a) <;> simp [List.filter_cons, h, ih]

theorem paraTexts_eq (ps : List HNode) :
    paraTexts ps
      = ((ps.map (fun p => pyStrip (getTextN p))).filter (fun s => !s.toList.isEmpty)) := by
  have := filter_map_swap (fun p => pyStrip (getTextN p)) (fun s => !s.toList.isEmpty) ps
  exact this

theorem sections_foldl (f : HNode → String) (p : String → Bool) (l : List HNode)
    (acc : List String) :
    l.foldl (fun a h => if p (f h) then a else a ++ [f h]) acc
      = acc ++ ((l.map f).filter (fun s => !(p s))) := by
  induction l generalizing acc with
  | nil => simp
  | cons h rest ih =>
    by_cases hp : p (f h) <;>
      simp [List.foldl_cons, List.filter_cons, hp, ih, List.append_assoc]

theorem sections_eq_spec (doc : HNode) : _extract_sections doc = specSections doc := by
  unfold _extract_sections specSections
  rw [sections_foldl (fun h => pyStrip (getTextN h)) (fun s => skipHeading (lowerS s))]
  simp

theorem pyTake_length_le (n : Nat) (s : String) : (pyTake n s).toList.length ≤ n := by
  simp [pyTake, List.length_take]

theorem listStartsWith_iff (p l : List Char) :
    listStartsWith p l = true ↔ ∃ t, l = p ++ t := by
  induction p generalizing l with
  | nil => simp [listStartsWith]
  | cons a ps ih =>
    cases l with
    | nil =>
      simp [listStartsWith]
    | cons c cs =>
      simp only [listStartsWith, Bool.and_eq_true, beq_iff_eq]
      constructor
      · rintro ⟨rfl, h⟩
        rcases (ih cs).1 h with ⟨t, rfl⟩
        exact ⟨t, rfl⟩
      · rintro ⟨t, ht⟩
        injection ht with h1 h2
        exact ⟨h1.symm, (ih cs).2 ⟨t, h2⟩⟩

theorem listStartsWith_append (p t : List Char) : listStartsWith p (p ++ t) = true :=
  (listStartsWith_iff p (p ++ t)).2 ⟨t, rfl⟩

/-- C3: the URL validator accepts exactly the strings of the form
https colon slash slash, two lowercase ASCII letters, .wikipedia.org/wiki/,
followed by a single nonempty path segment containing no slash, with nothing
before or after. -/
theorem url_validator_matches_pattern (url : String) :
    _is_valid_wikipedia_url url = true ↔
      ∃ (c1 c2 : Char) (seg : List Char),
        url.toList = urlHead ++ [c1, c2] ++ wikiMid ++ seg ∧
          c1.isLower = true ∧ c2.isLower = true ∧ seg ≠ [] ∧ '/' ∉ seg := by
  constructor
  · intro h
    unfold _is_valid_wikipedia_url at h
    rw [Bool.and_eq_true] at h
    obtain ⟨h1, h2⟩ := h
    obtain ⟨t, ht⟩ := (listStartsWith_iff urlHead url.toList).1 h1
    have hd : url.toList.drop 8 = t := by
      rw [ht]; exact List.drop_left urlHead t
    rw [hd] at h2
    cases t with
    | nil => exact Bool.noConfusion h2
    | cons c1 t1 =>
      cases t1 with
      | nil => exact Bool.noConfusion h2
      | cons c2 rest =>
        simp only [Bool.and_eq_true] at h2
        obtain ⟨⟨⟨hL1, hL2⟩, hw⟩, hs⟩ := h2
        obtain ⟨seg, hseg⟩ := (listStartsWith_iff wikiMid rest).1 hw
        have hd20 : rest.drop 20 = seg := by
          rw [hseg]; exact List.drop_left wikiMid seg
        rw [hd20] at hs
        unfold segOK at hs
        rw [Bool.and_eq_true] at hs
        obtain ⟨hne, hall⟩ := hs
        refine ⟨c1, c2, seg, ?_, hL1, hL2, ?_, ?_⟩
        · rw [ht, hseg]
          simp [List.append_assoc]
        · intro hnil
          rw [hnil] at hne
          exact Bool.noConfusion hne
        · intro hmem
          have := List.all_eq_true.1 hall '/' hmem
          simp at this
  · rintro ⟨c1, c2, seg, heq, h1, h2, h3, h4⟩
    have hnorm : url.toList = urlHead ++ (c1 :: c2 :: (wikiMid ++ seg)) := by
      rw [heq]; simp [List.append_assoc]
    unfold _is_valid_wikipedia_url
    rw [hnorm]
    have h8 : (urlHead ++ (c1 :: c2 :: (wikiMid ++ seg))).drop 8 = c1 :: c2 :: (wikiMid ++ seg) :=
      List.drop_left urlHead _
    rw [listStartsWith_append, h8]
    simp only [Bool.and_eq_true, Bool.true_and]
    refine ⟨⟨⟨h1, h2⟩, listStartsWith_append wikiMid seg⟩, ?_⟩
    have hd20 : (wikiMid ++ seg).drop 20 = seg := List.drop_left wikiMid seg
    rw [hd20]
    unfold segOK
    rw [Bool.and_eq_true]
    constructor
    · cases seg with
      | nil => exact absurd rfl h3
      | cons a r => rfl
    · exact List.all_eq_true.2 fun x hx => by
        have hxne : x ≠ '/' := fun hcontra => h4 (hcontra ▸ hx)
        simpa using hxne

/-- C5: the summary is the trimmed text of the first 3 paragraph elements of
the main content container joined with single spaces, citation markers
removed, hard-truncated to 1000 characters; on the scenario document the
markers are stripped as specified. -/
theorem extract_summary_spec :
    (∀ doc, _extract_summary doc = specSummary doc) ∧
      (∀ doc, (_extract_summary doc).toList.length ≤ 1000) ∧
      _extract_summary sumDoc = "Python is great. It is popular." := by
  refine ⟨?_, ?_, ?_⟩
  · intro doc
    unfold _extract_summary specSummary
    cases h : find_content doc with
    | none => rfl
    | some content => simp only [paraTexts_eq]
  · intro doc
    unfold _extract_summary
    cases h : find_content doc with
    | none => simp
    | some content => exact pyTake_length_le 1000 _
  · rfl

/-- C6: the sections list is exactly the stripped texts of the h2 and h3
headings of the whole document, in order, those containing a skip keyword
case-insensitively excluded, truncated to the first 10; in particular the
heading text See also never occurs, and the list never exceeds 10 entries. -/
theorem extract_sections_spec :
    (∀ doc, _extract_sections doc = specSections doc) ∧
      (∀ doc, "See also" ∉ _extract_sections doc) ∧
      (∀ doc, (_extract_sections doc).length ≤ 10) := by
  refine ⟨sections_eq_spec, ?_, ?_⟩
  · intro doc hmem
    rw [sections_eq_spec] at hmem
    unfold specSections at hmem
    have hmem2 := List.take_subset 10 _ hmem
    have hp := (List.mem_filter.1 hmem2).2
    have : skipHeading (lowerS "See also") = true := by decide
    rw [this] at hp
    exact Bool.noConfusion hp
  · intro doc
    rw [sections_eq_spec]
    unfold specSections
    simp [List.length_take]

/-- C4: full-content extraction does not remove navigation boxes: on navDoc
the paragraph inside the navbox div survives in the source computation while
the spec-modelled computation removes it; the truncation bound does hold. -/
theorem full_content_navbox_not_removed :
    _extract_full_content navDoc = "NAV Hello" ∧
      spec_full_content navDoc = "Hello" ∧
      (∀ doc, (_extract_full_content doc).toList.length ≤ 8000) := by
  refine ⟨rfl, rfl, ?_⟩
  intro doc
  unfold _extract_full_content
  cases h : find_content doc with
  | none => simp
  | some content => exact pyTake_length_le 8000 _

/-- C10: a document with no main content container yields empty summary and
empty full content, yet the sections list can be nonempty because heading
collection searches the whole document: chromeDoc has no container and still
produces a section. -/
theorem missing_container_behavior :
    (∀ doc, find_content doc = none →
        _extract_summary doc = "" ∧ _extract_full_content doc = "") ∧
      (find_content chromeDoc = none ∧ _extract_sections chromeDoc = ["News"]) := by
  constructor
  · intro doc h
    constructor
    · unfold _extract_summary
      rw [h]
    · unfold _extract_full_content
      rw [h]
  · exact ⟨rfl, rfl⟩

/-- Witness for C10 at the concrete document chromeDoc. -/
theorem missing_container_behavior_witness :
    _extract_summary chromeDoc = "" ∧ _extract_full_content chromeDoc = "" :=
  missing_container_behavior.1 chromeDoc rfl

/-! ## Association list lemmas -/

theorem lookupF_setF_self (fs : List (String × JVal)) (k : String) (v : JVal) :
    lookupF (setF fs k v) k = some v := by
  induction fs with
  | nil => simp [setF, lookupF]
  | cons kv rest ih =>
    obtain ⟨k0, v0⟩ := kv
    by_cases h : k0 = k
    · simp [setF, lookupF, h]
    · simp [setF, lookupF, h, ih]

theorem lookupF_setF_ne (fs : List (String × JVal)) (k k2 : String) (v : JVal)
    (h : k2 ≠ k) : lookupF (setF fs k v) k2 = lookupF fs k2 := by
  have h2 : ¬(k = k2) := fun hh => h hh.symm
  induction fs with
  | nil => simp [setF, lookupF, h2]
  | cons kv rest ih =>
    obtain ⟨k0, v0⟩ := kv
    by_cases h0 : k0 = k
    · simp [setF, lookupF, h0, h2]
    · by_cases h3 : k0 = k2 <;> simp [setF, lookupF, h0, h3, h, h2, ih]

theorem setF_self_of_lookup (fs : List (String × JVal)) (k : String) (v : JVal)
    (h : lookupF fs k = some v) : setF fs k v = fs := by
  induction fs with
  | nil => simp [lookupF] at h
  | cons kv rest ih =>
    obtain ⟨k0, v0⟩ := kv
    by_cases h0 : k0 = k
    · simp only [lookupF, if_pos h0] at h
      injection h with hv
      simp [setF, h0, hv]
    · simp only [lookupF, if_neg h0] at h
      simp [setF, h0, ih h]

/-! ## String stripping lemmas -/

theorem pyStripL_eq_nil_iff (l : List Char) :
    pyStripL l = [] ↔ ∀ c ∈ l, isPySpace c = true := by
  unfold pyStripL
  rw [List.reverse_eq_nil_iff, List.dropWhile_eq_nil_iff]
  constructor
  · intro h c hc
    rw [← List.takeWhile_append_dropWhile (p := isPySpace) (l := l)] at hc
    rcases List.mem_append.1 hc with h1 | h1
    · exact List.mem_takeWhile_imp h1
    · exact h c (List.mem_reverse.2 h1)
  · intro h c hc
    exact h c ((List.dropWhile_sublist isPySpace).subset (List.mem_reverse.1 hc))

theorem strBlank_false_of_mem (s : String) (c : Char) (hm : c ∈ s.toList)
    (hc : isPySpace c = false) : strBlank s = false := by
  unfold strBlank
  cases h : pyStripL s.toList with
  | cons a r => rfl
  | nil =>
    have := (pyStripL_eq_nil_iff s.toList).1 h c hm
    rw [hc] at this
    exact Bool.noConfusion this

theorem toList_app (a b : String) : (a ++ b).toList = a.toList ++ b.toList := rfl

theorem mem_toList_left (a b : String) (c : Char) (h : c ∈ a.toList) :
    c ∈ (a ++ b).toList := by
  rw [toList_app]
  exact List.mem_append_left _ h

theorem strBlank_append1_false (a t : String) (c : Char) (h : c ∈ a.toList)
    (hc : isPySpace c = false) : strBlank (a ++ t) = false :=
  strBlank_false_of_mem _ c (mem_toList_left a t c h) hc

theorem strBlank_append2_false (a t b : String) (c : Char) (h : c ∈ a.toList)
    (hc : isPySpace c = false) : strBlank (a ++ t ++ b) = false :=
  strBlank_false_of_mem _ c (mem_toList_left (a ++ t) b c (mem_toList_left a t c h)) hc

theorem toList_append_isEmpty_false (a b : String) (h : a.toList.isEmpty = false) :
    (a ++ b).toList.isEmpty = false := by
  rw [toList_app]
  cases hl : a.toList with
  | nil => rw [hl] at h; exact Bool.noConfusion h
  | cons x r => rfl

/-! ## Nonblankness of the templated fallback strings -/

theorem sbQ1 (t : String) :
    strBlank ("What is the primary focus or subject of the Wikipedia article about " ++ t ++ "?")
      = false :=
  strBlank_append2_false _ t _ 'W' (by decide) (by decide)

theorem sbQ2 (t : String) :
    strBlank ("What type of information would you expect to find in this Wikipedia article about " ++ t ++ "?")
      = false :=
  strBlank_append2_false _ t _ 'W' (by decide) (by decide)

theorem sbQ3 (t : String) :
    strBlank ("How does Wikipedia ensure the accuracy of information about topics like " ++ t ++ "?")
      = false :=
  strBlank_append2_false _ t _ 'H' (by decide) (by decide)

theorem sbQ4 (t : String) :
    strBlank ("Why might " ++ t ++ " be considered an important topic for a Wikipedia article?")
      = false :=
  strBlank_append2_false _ t _ 'W' (by decide) (by decide)

theorem sbQ5 (t : String) :
    strBlank ("What makes Wikipedia\x27s coverage of " ++ t ++ " valuable for learners and researchers?")
      = false :=
  strBlank_append2_false _ t _ 'W' (by decide) (by decide)

theorem sbE1 (t : String) :
    strBlank ("The article specifically focuses on " ++ t ++ " and provides detailed information about it.")
      = false :=
  strBlank_append2_false _ t _ 'T' (by decide) (by decide)

theorem sbQP (t : String) :
    strBlank ("What is a key fact about " ++ t ++ "?") = false :=
  strBlank_append2_false _ t _ 'W' (by decide) (by decide)

theorem sbEP (t : String) :
    strBlank ("This is correct based on the Wikipedia article about " ++ t ++ ".") = false :=
  strBlank_append2_false _ t _ 'T' (by decide) (by decide)

theorem neA1 (t : String) :
    ("The main topic: " ++ t ++ " and its significance").toList.isEmpty = false :=
  toList_append_isEmpty_false _ _ (toList_append_isEmpty_false _ _ (by decide))

/-! ## Fallback quiz validity -/

theorem fallback_spec_valid (t : String) :
    specValidQuiz (_generate_smart_fallback_quiz t) = true := by
  simp [specValidQuiz, _generate_smart_fallback_quiz, fallbackQuestions, fallbackQ1,
    fallbackQ2, fallbackQ3, fallbackQ4, fallbackQ5, specValidQuestion, specValidOptions,
    lookupF, qTextOK, oSpecOK, caOK, eTextOK, dOK, truthy,
    sbQ1, sbQ2, sbQ3, sbQ4, sbQ5, sbE1, neA1]
  decide

theorem validOptionsLen_of_spec (ov : JVal) (h : specValidOptions ov = true) :
    validOptionsLen ov = true := by
  cases ov with
  | jobj os =>
    unfold specValidOptions at h
    rw [Bool.and_eq_true] at h
    have hk : os.map Prod.fst = ["A", "B", "C", "D"] := by
      have := h.1
      exact eq_of_beq this
    have hlen : os.length = 4 := by
      have := congrArg List.length hk
      simpa using this
    simp [validOptionsLen, hlen]
  | jnull => exact Bool.noConfusion h
  | jbool b => exact Bool.noConfusion h
  | jnum n => exact Bool.noConfusion h
  | jstr s => exact Bool.noConfusion h
  | jarr xs => exact Bool.noConfusion h

theorem oLenOK_of_spec (fs : List (String × JVal)) (h : oSpecOK fs = true) :
    oLenOK fs = true := by
  unfold oSpecOK at h
  unfold oLenOK
  cases ho : lookupF fs "options" with
  | none => rw [ho] at h; exact Bool.noConfusion h
  | some ov => rw [ho] at h; exact validOptionsLen_of_spec ov h

theorem codeValidQuestion_of_spec (q : JVal) (h : specValidQuestion q = true) :
    codeValidQuestion q = true := by
  cases q with
  | jobj fs =>
    unfold specValidQuestion at h
    unfold codeValidQuestion
    simp only [Bool.and_eq_true] at h ⊢
    exact ⟨⟨⟨⟨h.1.1.1.1, oLenOK_of_spec fs h.1.1.1.2⟩, h.1.1.2⟩, h.1.2⟩, h.2⟩
  | jnull => exact Bool.noConfusion h
  | jbool b => exact Bool.noConfusion h
  | jnum n => exact Bool.noConfusion h
  | jstr s => exact Bool.noConfusion h
  | jarr xs => exact Bool.noConfusion h

theorem codeValidQuiz_of_spec (v : JVal) (h : specValidQuiz v = true) :
    codeValidQuiz v = true := by
  cases v with
  | jobj fs =>
    unfold specValidQuiz at h
    unfold codeValidQuiz
    rw [Bool.and_eq_true] at h ⊢
    obtain ⟨h1, h2⟩ := h
    constructor
    · cases hq : lookupF fs "questions" with
      | none => rw [hq] at h1; exact Bool.noConfusion h1
      | some qv =>
        rw [hq] at h1
        cases qv with
        | jarr qs =>
          rw [Bool.and_eq_true] at h1 ⊢
          refine ⟨h1.1, ?_⟩
          rw [List.all_eq_true] at h1 ⊢
          exact fun q hqm => codeValidQuestion_of_spec q (h1.2 q hqm)
        | jnull => exact Bool.noConfusion h1
        | jbool b => exact Bool.noConfusion h1
        | jnum n => exact Bool.noConfusion h1
        | jstr s => exact Bool.noConfusion h1
        | jobj gs => exact Bool.noConfusion h1
    · cases hr : lookupF fs "related_topics" with
      | none => rw [hr] at h2; exact Bool.noConfusion h2
      | some rv =>
        rw [hr] at h2
        cases rv with
        | jarr ts =>
          rw [Bool.and_eq_true] at h2
          exact h2.1
        | jnull => exact Bool.noConfusion h2
        | jbool b => exact Bool.noConfusion h2
        | jnum n => exact Bool.noConfusion h2
        | jstr s => exact Bool.noConfusion h2
        | jobj gs => exact Bool.noConfusion h2
  | jnull => exact Bool.noConfusion h
  | jbool b => exact Bool.noConfusion h
  | jnum n => exact Bool.noConfusion h
  | jstr s => exact Bool.noConfusion h
  | jarr xs => exact Bool.noConfusion h

theorem fallback_code_valid (t : String) :
    codeValidQuiz (_generate_smart_fallback_quiz t) = true :=
  codeValidQuiz_of_spec _ (fallback_spec_valid t)


/-! ## Field repair lemmas -/

theorem validOptionsLen_of_len4 (ov : JVal) (h : pyLen ov = .ok 4) :
    validOptionsLen ov = true := by
  cases ov with
  | jstr s =>
    unfold pyLen at h
    injection h with h2
    simp only [validOptionsLen]
    rw [h2]
    rfl
  | jarr xs =>
    unfold pyLen at h
    injection h with h2
    simp only [validOptionsLen]
    rw [h2]
    rfl
  | jobj gs =>
    unfold pyLen at h
    injection h with h2
    simp only [validOptionsLen]
    rw [h2]
    rfl
  | jnull => exact Except.noConfusion h
  | jbool b => exact Except.noConfusion h
  | jnum n => exact Except.noConfusion h

theorem pyLen4_of_validOptionsLen (ov : JVal) (h : validOptionsLen ov = true) :
    pyLen ov = .ok 4 := by
  cases ov with
  | jstr s =>
    unfold validOptionsLen at h
    have h2 : s.toList.length = 4 := by simpa using h
    simp only [pyLen]
    rw [h2]
  | jarr xs =>
    unfold validOptionsLen at h
    have h2 : xs.length = 4 := by simpa using h
    simp only [pyLen]
    rw [h2]
  | jobj gs =>
    unfold validOptionsLen at h
    have h2 : gs.length = 4 := by simpa using h
    simp only [pyLen]
    rw [h2]
  | jnull => exact Bool.noConfusion h
  | jbool b => exact Bool.noConfusion h
  | jnum n => exact Bool.noConfusion h

theorem qTextOK_setF (t : String) (fs : List (String × JVal)) :
    qTextOK (setF fs "question" (questionPlaceholder t)) = true := by
  unfold qTextOK questionPlaceholder
  rw [lookupF_setF_self]
  simp [sbQP]

theorem oLenOK_setF (t : String) (fs : List (String × JVal)) :
    oLenOK (setF fs "options" (defaultOptions t)) = true := by
  unfold oLenOK defaultOptions
  rw [lookupF_setF_self]
  rfl

theorem caOK_setF (fs : List (String × JVal)) :
    caOK (setF fs "correct_answer" (.jstr "A")) = true := by
  unfold caOK
  rw [lookupF_setF_self]
  rfl

theorem eTextOK_setF (t : String) (fs : List (String × JVal)) :
    eTextOK (setF fs "explanation" (explanationPlaceholder t)) = true := by
  unfold eTextOK explanationPlaceholder
  rw [lookupF_setF_self]
  simp [sbEP]

theorem dOK_setF (i : Nat) (fs : List (String × JVal)) :
    dOK (setF fs "difficulty" (.jstr (if i % 2 = 0 then "medium" else "easy"))) = true := by
  unfold dOK
  rw [lookupF_setF_self]
  by_cases hp : i % 2 = 0 <;> simp [hp]

theorem fixQField_ok (t : String) (fs fs2 : List (String × JVal))
    (h : fixQField t fs = .ok fs2) :
    qTextOK fs2 = true ∧ ∀ k, k ≠ "question" → lookupF fs2 k = lookupF fs k := by
  cases hq : lookupF fs "question" with
  | none =>
    simp only [fixQField, hq, Except.ok.injEq] at h
    subst h
    exact ⟨qTextOK_setF t fs, fun k hk => lookupF_setF_ne fs "question" k _ hk⟩
  | some v =>
    cases v with
    | jstr s =>
      cases hb : strBlank s with
      | true =>
        simp [fixQField, hq, hb] at h
        subst h
        exact ⟨qTextOK_setF t fs, fun k hk => lookupF_setF_ne fs "question" k _ hk⟩
      | false =>
        simp [fixQField, hq, hb] at h
        subst h
        refine ⟨?_, fun k hk => rfl⟩
        simp [qTextOK, hq, hb]
    | jnull => simp [fixQField, hq] at h
    | jbool b => simp [fixQField, hq] at h
    | jnum n => simp [fixQField, hq] at h
    | jarr xs => simp [fixQField, hq] at h
    | jobj gs => simp [fixQField, hq] at h

theorem fixQField_keep (t : String) (fs : List (String × JVal)) (h : qTextOK fs = true) :
    fixQField t fs = .ok fs := by
  unfold qTextOK at h
  cases hq : lookupF fs "question" with
  | none => rw [hq] at h; exact Bool.noConfusion h
  | some v =>
    rw [hq] at h
    cases v with
    | jstr s =>
      have hb : strBlank s = false := by simpa using h
      simp [fixQField, hq, hb]
    | jnull => exact Bool.noConfusion h
    | jbool b => exact Bool.noConfusion h
    | jnum n => exact Bool.noConfusion h
    | jarr xs => exact Bool.noConfusion h
    | jobj gs => exact Bool.noConfusion h

theorem fixOField_ok (t : String) (fs fs2 : List (String × JVal))
    (h : fixOField t fs = .ok fs2) :
    oLenOK fs2 = true ∧ ∀ k, k ≠ "options" → lookupF fs2 k = lookupF fs k := by
  cases ho : lookupF fs "options" with
  | none =>
    simp only [fixOField, ho, Except.ok.injEq] at h
    subst h
    exact ⟨oLenOK_setF t fs, fun k hk => lookupF_setF_ne fs "options" k _ hk⟩
  | some ov =>
    cases hl : pyLen ov with
    | error e => simp [fixOField, ho, hl] at h
    | ok n =>
      by_cases h4 : n = 4
      · simp [fixOField, ho, hl, h4] at h
        subst h
        refine ⟨?_, fun k hk => rfl⟩
        unfold oLenOK
        rw [ho]
        exact validOptionsLen_of_len4 ov (h4 ▸ hl)
      · simp [fixOField, ho, hl, h4] at h
        subst h
        exact ⟨oLenOK_setF t fs, fun k hk => lookupF_setF_ne fs "options" k _ hk⟩

theorem fixOField_keep (t : String) (fs : List (String × JVal)) (h : oLenOK fs = true) :
    fixOField t fs = .ok fs := by
  unfold oLenOK at h
  cases ho : lookupF fs "options" with
  | none => rw [ho] at h; exact Bool.noConfusion h
  | some ov =>
    rw [ho] at h
    have hp : pyLen ov = .ok 4 := pyLen4_of_validOptionsLen ov h
    simp [fixOField, ho, hp]

theorem fixCAField_ok (fs : List (String × JVal)) :
    caOK (fixCAField fs) = true ∧
      ∀ k, k ≠ "correct_answer" → lookupF (fixCAField fs) k = lookupF fs k := by
  unfold fixCAField
  cases hc : caOK fs with
  | true =>
    rw [if_pos rfl]
    exact ⟨hc, fun k hk => rfl⟩
  | false =>
    rw [if_neg Bool.false_ne_true]
    exact ⟨caOK_setF fs, fun k hk => lookupF_setF_ne fs "correct_answer" k _ hk⟩

theorem fixCAField_keep (fs : List (String × JVal)) (h : caOK fs = true) :
    fixCAField fs = fs := by
  simp [fixCAField, h]

theorem fixEField_ok (t : String) (fs fs2 : List (String × JVal))
    (h : fixEField t fs = .ok fs2) :
    eTextOK fs2 = true ∧ ∀ k, k ≠ "explanation" → lookupF fs2 k = lookupF fs k := by
  cases hq : lookupF fs "explanation" with
  | none =>
    simp only [fixEField, hq, Except.ok.injEq] at h
    subst h
    exact ⟨eTextOK_setF t fs, fun k hk => lookupF_setF_ne fs "explanation" k _ hk⟩
  | some v =>
    cases v with
    | jstr s =>
      cases hb : strBlank s with
      | true =>
        simp [fixEField, hq, hb] at h
        subst h
        exact ⟨eTextOK_setF t fs, fun k hk => lookupF_setF_ne fs "explanation" k _ hk⟩
      | false =>
        simp [fixEField, hq, hb] at h
        subst h
        refine ⟨?_, fun k hk => rfl⟩
        simp [eTextOK, hq, hb]
    | jnull => simp [fixEField, hq] at h
    | jbool b => simp [fixEField, hq] at h
    | jnum n => simp [fixEField, hq] at h
    | jarr xs => simp [fixEField, hq] at h
    | jobj gs => simp [fixEField, hq] at h

theorem fixEField_keep (t : String) (fs : List (String × JVal)) (h : eTextOK fs = true) :
    fixEField t fs = .ok fs := by
  unfold eTextOK at h
  cases hq : lookupF fs "explanation" with
  | none => rw [hq] at h; exact Bool.noConfusion h
  | some v =>
    rw [hq] at h
    cases v with
    | jstr s =>
      have hb : strBlank s = false := by simpa using h
      simp [fixEField, hq, hb]
    | jnull => exact Bool.noConfusion h
    | jbool b => exact Bool.noConfusion h
    | jnum n => exact Bool.noConfusion h
    | jarr xs => exact Bool.noConfusion h
    | jobj gs => exact Bool.noConfusion h

theorem fixDField_ok (i : Nat) (fs : List (String × JVal)) :
    dOK (fixDField i fs) = true ∧
      ∀ k, k ≠ "difficulty" → lookupF (fixDField i fs) k = lookupF fs k := by
  unfold fixDField
  cases hd : dOK fs with
  | true =>
    rw [if_pos rfl]
    exact ⟨hd, fun k hk => rfl⟩
  | false =>
    rw [if_neg Bool.false_ne_true]
    exact ⟨dOK_setF i fs, fun k hk => lookupF_setF_ne fs "difficulty" k _ hk⟩

theorem fixDField_keep (i : Nat) (fs : List (String × JVal)) (h : dOK fs = true) :
    fixDField i fs = fs := by
  simp [fixDField, h]

/-! ## Question repair lemmas -/

theorem qTextOK_congr (fs fs2 : List (String × JVal))
    (h : lookupF fs2 "question" = lookupF fs "question") : qTextOK fs2 = qTextOK fs := by
  unfold qTextOK
  rw [h]

theorem oLenOK_congr (fs fs2 : List (String × JVal))
    (h : lookupF fs2 "options" = lookupF fs "options") : oLenOK fs2 = oLenOK fs := by
  unfold oLenOK
  rw [h]

theorem caOK_congr (fs fs2 : List (String × JVal))
    (h : lookupF fs2 "correct_answer" = lookupF fs "correct_answer") : caOK fs2 = caOK fs := by
  unfold caOK
  rw [h]

theorem eTextOK_congr (fs fs2 : List (String × JVal))
    (h : lookupF fs2 "explanation" = lookupF fs "explanation") : eTextOK fs2 = eTextOK fs := by
  unfold eTextOK
  rw [h]

theorem fixQuestion_ok (t : String) (i : Nat) (q q2 : JVal)
    (h : fixQuestion t i q = .ok q2) : codeValidQuestion q2 = true := by
  cases q with
  | jobj fs =>
    cases h1 : fixQField t fs with
    | error e => simp [fixQuestion, h1] at h
    | ok fs1 =>
      cases h2 : fixOField t fs1 with
      | error e => simp [fixQuestion, h1, h2] at h
      | ok fs2 =>
        cases h4 : fixEField t (fixCAField fs2) with
        | error e => simp [fixQuestion, h1, h2, h4] at h
        | ok fs4 =>
          simp only [fixQuestion, h1, h2, h4, Except.ok.injEq] at h
          subst h
          obtain ⟨hq1, p1⟩ := fixQField_ok t fs fs1 h1
          obtain ⟨ho2, p2⟩ := fixOField_ok t fs1 fs2 h2
          obtain ⟨hc3, p3⟩ := fixCAField_ok fs2
          obtain ⟨he4, p4⟩ := fixEField_ok t (fixCAField fs2) fs4 h4
          obtain ⟨hd5, p5⟩ := fixDField_ok i fs4
          have hq5 : qTextOK (fixDField i fs4) = true := by
            rw [qTextOK_congr fs1 _ (by
              rw [p5 _ (by decide), p4 _ (by decide), p3 _ (by decide), p2 _ (by decide)])]
            exact hq1
          have ho5 : oLenOK (fixDField i fs4) = true := by
            rw [oLenOK_congr fs2 _ (by
              rw [p5 _ (by decide), p4 _ (by decide), p3 _ (by decide)])]
            exact ho2
          have hc5 : caOK (fixDField i fs4) = true := by
            rw [caOK_congr (fixCAField fs2) _ (by
              rw [p5 _ (by decide), p4 _ (by decide)])]
            exact hc3
          have he5 : eTextOK (fixDField i fs4) = true := by
            rw [eTextOK_congr fs4 _ (p5 _ (by decide))]
            exact he4
          simp [codeValidQuestion, hq5, ho5, hc5, he5, hd5]
  | jnull => simp [fixQuestion] at h
  | jbool b => simp [fixQuestion] at h
  | jnum n => simp [fixQuestion] at h
  | jstr s => simp [fixQuestion] at h
  | jarr xs => simp [fixQuestion] at h

theorem fixQuestion_keep (t : String) (i : Nat) (q : JVal)
    (h : specValidQuestion q = true) : fixQuestion t i q = .ok q := by
  cases q with
  | jobj fs =>
    simp only [specValidQuestion, Bool.and_eq_true] at h
    obtain ⟨⟨⟨⟨h1, h2⟩, h3⟩, h4⟩, h5⟩ := h
    have e1 := fixQField_keep t fs h1
    have e2 := fixOField_keep t fs (oLenOK_of_spec fs h2)
    have e3 := fixCAField_keep fs h3
    have e4 := fixEField_keep t fs h4
    have e5 := fixDField_keep i fs h5
    simp [fixQuestion, e1, e2, e3, e4, e5]
  | jnull => simp [specValidQuestion] at h
  | jbool b => simp [specValidQuestion] at h
  | jnum n => simp [specValidQuestion] at h
  | jstr s => simp [specValidQuestion] at h
  | jarr xs => simp [specValidQuestion] at h

theorem fixQuestions_ok (t : String) (qs : List JVal) :
    ∀ (i : Nat) (qs2 : List JVal), fixQuestions t i qs = .ok qs2 →
      qs2.length = qs.length ∧ ∀ q ∈ qs2, codeValidQuestion q = true := by
  induction qs with
  | nil =>
    intro i qs2 h
    simp only [fixQuestions, Except.ok.injEq] at h
    subst h
    simp
  | cons q rest ih =>
    intro i qs2 h
    cases hq : fixQuestion t i q with
    | error e => simp [fixQuestions, hq] at h
    | ok q2 =>
      cases hr : fixQuestions t (i + 1) rest with
      | error e => simp [fixQuestions, hq, hr] at h
      | ok rest2 =>
        simp only [fixQuestions, hq, hr, Except.ok.injEq] at h
        subst h
        obtain ⟨hl, hv⟩ := ih (i + 1) rest2 hr
        refine ⟨by simp [hl], ?_⟩
        intro x hx
        rcases List.mem_cons.1 hx with rfl | hx2
        · exact fixQuestion_ok t i q x hq
        · exact hv x hx2

theorem fixQuestions_keep (t : String) (qs : List JVal)
    (h : ∀ q ∈ qs, specValidQuestion q = true) :
    ∀ i, fixQuestions t i qs = .ok qs := by
  induction qs with
  | nil => intro i; rfl
  | cons q rest ih =>
    intro i
    have hq := fixQuestion_keep t i q (h q (List.mem_cons_self q rest))
    have hr := ih (fun x hx => h x (List.mem_cons_of_mem q hx)) (i + 1)
    simp [fixQuestions, hq, hr]

/-! ## Related topics repair lemmas -/

theorem relFix_cases (t : String) (fs : List (String × JVal)) :
    (∃ rv, lookupF fs "related_topics" = some rv ∧ truthy rv = true ∧ relFix t fs = fs) ∨
      relFix t fs = setF fs "related_topics" (defaultTopics t) := by
  unfold relFix
  cases hr : lookupF fs "related_topics" with
  | none => right; rfl
  | some rv =>
    cases htr : truthy rv with
    | true =>
      left
      refine ⟨rv, rfl, htr, ?_⟩
      simp [htr]
    | false =>
      right
      simp [htr]

theorem relFix_valid (t : String) (fs : List (String × JVal)) :
    ∃ rv, lookupF (relFix t fs) "related_topics" = some rv ∧ truthy rv = true := by
  rcases relFix_cases t fs with ⟨rv, hr, htr, heq⟩ | heq
  · exact ⟨rv, by rw [heq]; exact hr, htr⟩
  · exact ⟨defaultTopics t, by rw [heq]; exact lookupF_setF_self fs _ _, rfl⟩

theorem relFix_preserve (t : String) (fs : List (String × JVal)) (k : String)
    (h : k ≠ "related_topics") : lookupF (relFix t fs) k = lookupF fs k := by
  rcases relFix_cases t fs with ⟨rv, hr, htr, heq⟩ | heq
  · rw [heq]
  · rw [heq]; exact lookupF_setF_ne fs _ k _ h

theorem relFix_keep (t : String) (fs : List (String × JVal)) (rv : JVal)
    (hr : lookupF fs "related_topics" = some rv) (htr : truthy rv = true) :
    relFix t fs = fs := by
  unfold relFix
  rw [hr]
  simp [htr]

/-! ## Validation stage lemmas -/

theorem validate_ok_valid (t : String) (fs : List (String × JVal)) (qs : List JVal) (q : JVal)
    (hq : lookupF fs "questions" = some (.jarr qs)) (hlen : 3 ≤ qs.length)
    (h : _validate_quiz_structure t (.jobj fs) = .ok q) : codeValidQuiz q = true := by
  simp only [_validate_quiz_structure, hq, Option.isSome_some, if_true] at h
  cases hfq : fixQuestions t 0 qs with
  | error e => rw [hfq] at h; exact Except.noConfusion h
  | ok qs2 =>
    rw [hfq] at h
    injection h with h2
    subst h2
    obtain ⟨hl2, hv2⟩ := fixQuestions_ok t qs 0 qs2 hfq
    have hqx : lookupF (relFix t (setF fs "questions" (.jarr qs2))) "questions"
        = some (.jarr qs2) := by
      rw [relFix_preserve t _ _ (by decide)]
      exact lookupF_setF_self fs _ _
    obtain ⟨rv, hrv, htv⟩ := relFix_valid t (setF fs "questions" (.jarr qs2))
    simp only [codeValidQuiz, hqx, hrv]
    rw [Bool.and_eq_true, Bool.and_eq_true]
    refine ⟨⟨?_, ?_⟩, htv⟩
    · rw [hl2]
      exact decide_eq_true hlen
    · exact List.all_eq_true.2 hv2

theorem parse_valid (t : String) (v : JVal) :
    codeValidQuiz (_parse_quiz_data t v) = true := by
  unfold _parse_quiz_data
  cases hp : _parse_quiz_attempt t v with
  | error e => exact fallback_code_valid t
  | ok q =>
    cases v with
    | jobj fs =>
      cases hq : lookupF fs "questions" with
      | none => simp [_parse_quiz_attempt, hq] at hp
      | some qv =>
        cases htr : truthy qv with
        | false => simp [_parse_quiz_attempt, hq, htr] at hp
        | true =>
          cases hn : pyLen qv with
          | error e => simp [_parse_quiz_attempt, hq, htr, hn] at hp
          | ok n =>
            by_cases h3 : n < 3
            · cases qv with
              | jarr qs =>
                simp only [_parse_quiz_attempt, hq, htr, hn, if_pos h3, if_true] at hp
                have h1 : 1 ≤ qs.length := by
                  cases qs with
                  | nil => simp [truthy] at htr
                  | cons a r => simp
                have hext : 3 ≤ (extend_questions t qs).length := by
                  have h5 : (fallbackQuestions t).length = 5 := rfl
                  unfold extend_questions
                  rw [List.length_append, List.length_take, h5]
                  omega
                exact validate_ok_valid t _ _ q (lookupF_setF_self fs _ _) hext hp
              | jstr s => simp [_parse_quiz_attempt, hq, htr, hn, h3] at hp
              | jobj gs => simp [_parse_quiz_attempt, hq, htr, hn, h3] at hp
              | jnull => simp [pyLen] at hn
              | jbool b => simp [pyLen] at hn
              | jnum m => simp [pyLen] at hn
            · simp only [_parse_quiz_attempt, hq, htr, hn, if_neg h3, if_true] at hp
              cases qv with
              | jarr qs =>
                have hql : qs.length = n := by
                  simp only [pyLen, Except.ok.injEq] at hn
                  exact hn
                exact validate_ok_valid t fs qs q hq (by omega) hp
              | jstr s =>
                have hsl : s.toList.length = n := by
                  simp only [pyLen, Except.ok.injEq] at hn
                  exact hn
                have hsd : ¬s.data = [] := by
                  intro hnil
                  rw [show s.toList = s.data from rfl, hnil] at hsl
                  simp at hsl
                  omega
                simp [_validate_quiz_structure, hq, hsd] at hp
              | jobj gs =>
                have hsl : gs.length = n := by
                  simp only [pyLen, Except.ok.injEq] at hn
                  exact hn
                have hsne : gs.isEmpty = false := by
                  cases hl : gs with
                  | nil => rw [hl] at hsl; simp at hsl; omega
                  | cons a r => rfl
                simp [_validate_quiz_structure, hq, hsne] at hp
              | jnull => simp [pyLen] at hn
              | jbool b => simp [pyLen] at hn
              | jnum m => simp [pyLen] at hn
    | jnull => simp [_parse_quiz_attempt] at hp
    | jbool b => simp [_parse_quiz_attempt] at hp
    | jnum n => simp [_parse_quiz_attempt] at hp
    | jstr s => simp [_parse_quiz_attempt] at hp
    | jarr xs => simp [_parse_quiz_attempt] at hp

/-! ## Top level case analysis -/

theorem generate_quiz_cases (key : Option String) (mr : Except Unit JVal)
    (content title : String) :
    generate_quiz key mr content title = .ok (_generate_smart_fallback_quiz title) ∨
      ∃ v, mr = .ok v ∧
        generate_quiz key mr content title = .ok (_parse_quiz_data title v) := by
  unfold generate_quiz generate_quiz_body
  by_cases hk : keyTruthy key = false
  · rw [if_pos hk]
    left
    rfl
  · rw [if_neg hk]
    split_ifs with h2
    · left; rfl
    · cases mr with
      | error e => left; rfl
      | ok v => right; exact ⟨v, rfl, rfl⟩

/-- C1: generate_quiz never raises: for every api key configuration, every
model behavior (transport error, unparseable text, or arbitrary parsed
output) and every content and title, the call returns a quiz value, and
every failure of the try block is resolved to the fallback quiz. -/
theorem generate_quiz_never_raises :
    (∀ (key : Option String) (mr : Except Unit JVal) (content title : String),
        ∃ q, generate_quiz key mr content title = Except.ok q) ∧
      (∀ (key : Option String) (mr : Except Unit JVal) (content title : String),
        generate_quiz_body key mr content title = Except.error () →
          generate_quiz key mr content title
            = Except.ok (_generate_smart_fallback_quiz title)) := by
  constructor
  · intro key mr content title
    rcases generate_quiz_cases key mr content title with h | ⟨v, hv, h⟩
    · exact ⟨_, h⟩
    · exact ⟨_, h⟩
  · intro key mr content title h
    unfold generate_quiz
    rw [h]

set_option maxRecDepth 8192 in
/-- Witness for C1: a transport error of the model call on long content with
a configured key yields exactly the fallback quiz. -/
theorem generate_quiz_never_raises_witness :
    generate_quiz (some "k") (Except.error ()) cexContent "Lean"
      = Except.ok (_generate_smart_fallback_quiz "Lean") :=
  generate_quiz_never_raises.2 (some "k") (Except.error ()) cexContent "Lean" (by rfl)

set_option maxRecDepth 8192 in
/-- C2 counterexample: on a parsed model response whose third question has a
4-entry options mapping keyed W, X, Y, Z and whose related_topics is the
number 5, the pipeline returns that data unchanged, and the returned quiz
violates the invariant list of the claim. -/
theorem quiz_invariant_counterexample :
    (generate_quiz (some "k") (Except.ok cexParsed) cexContent "T").toOption.map claimC2Inv
      = some false := by
  rfl

/-- C2 amended: every result of generate_quiz has at least 3 questions, each
an object with nonblank question and explanation strings, a correct_answer
among A to D, a difficulty among the three levels and an options value with
exactly 4 entries (the key labels are not checked), and a truthy
related_topics value (a nonempty sequence when it is a sequence). -/
theorem generate_quiz_structural_invariants :
    ∀ (key : Option String) (mr : Except Unit JVal) (content title : String),
      ∃ q, generate_quiz key mr content title = Except.ok q ∧ codeValidQuiz q = true := by
  intro key mr content title
  rcases generate_quiz_cases key mr content title with h | ⟨v, hv, h⟩
  · exact ⟨_, h, fallback_code_valid title⟩
  · exact ⟨_, h, parse_valid title v⟩

/-- C7: when the parsed model response holds at least 1 and fewer than 3
questions, the repair step appends fallback questions in fallback order,
keeping the model questions unchanged at the front, and the resulting list
has at least 3 questions. -/
theorem repair_appends_fallback :
    ∀ (t : String) (qs : List JVal), 1 ≤ qs.length → qs.length < 3 →
      3 ≤ (extend_questions t qs).length ∧
        (extend_questions t qs).take qs.length = qs ∧
        (extend_questions t qs).drop qs.length = (fallbackQuestions t).take (5 - qs.length) := by
  intro t qs h1 h3
  unfold extend_questions
  refine ⟨?_, List.take_left qs _, List.drop_left qs _⟩
  rw [List.length_append, List.length_take]
  have h5 : (fallbackQuestions t).length = 5 := rfl
  rw [h5]
  omega

/-- Witness for C7: two concrete model questions are kept at the front and
backfilled from the fallback set. -/
theorem repair_appends_fallback_witness :
    3 ≤ (extend_questions "Python" [sampleQuestion "First?", sampleQuestion "Second?"]).length ∧
      (extend_questions "Python" [sampleQuestion "First?", sampleQuestion "Second?"]).take
          ([sampleQuestion "First?", sampleQuestion "Second?"] : List JVal).length
        = [sampleQuestion "First?", sampleQuestion "Second?"] ∧
      (extend_questions "Python" [sampleQuestion "First?", sampleQuestion "Second?"]).drop
          ([sampleQuestion "First?", sampleQuestion "Second?"] : List JVal).length
        = (fallbackQuestions "Python").take
            (5 - ([sampleQuestion "First?", sampleQuestion "Second?"] : List JVal).length) :=
  repair_appends_fallback "Python" [sampleQuestion "First?", sampleQuestion "Second?"]
    (by decide) (by decide)

/-- C8: validation and repair is idempotent: a quiz already satisfying the
structural invariants is returned unchanged. -/
theorem validate_idempotent :
    ∀ (t : String) (v : JVal), specValidQuiz v = true →
      _validate_quiz_structure t v = Except.ok v := by
  intro t v h
  cases v with
  | jobj fs =>
    simp only [specValidQuiz, Bool.and_eq_true] at h
    obtain ⟨h1, h2⟩ := h
    cases hq : lookupF fs "questions" with
    | none => rw [hq] at h1; exact Bool.noConfusion h1
    | some qv =>
      rw [hq] at h1
      cases qv with
      | jarr qs =>
        have h1b : (decide (3 ≤ qs.length) && qs.all specValidQuestion) = true := h1
        rw [Bool.and_eq_true] at h1b
        obtain ⟨hlen, hall⟩ := h1b
        have hkeep := fixQuestions_keep t qs (fun x hx => List.all_eq_true.1 hall x hx)
        cases hr : lookupF fs "related_topics" with
        | none => rw [hr] at h2; exact Bool.noConfusion h2
        | some rv =>
          rw [hr] at h2
          cases rv with
          | jarr ts =>
            have h2b : (!ts.isEmpty &&
                ts.all (fun x => match x with | .jstr _ => true | _ => false)) = true := h2
            have hts : truthy (.jarr ts) = true := by
              rw [Bool.and_eq_true] at h2b
              exact h2b.1
            have hrelkeep : relFix t fs = fs := relFix_keep t fs (.jarr ts) hr hts
            have hset : setF fs "questions" (.jarr qs) = fs := setF_self_of_lookup fs _ _ hq
            simp [_validate_quiz_structure, hq, hkeep 0, hset, hrelkeep]
          | jnull => exact Bool.noConfusion h2
          | jbool b => exact Bool.noConfusion h2
          | jnum n => exact Bool.noConfusion h2
          | jstr s => exact Bool.noConfusion h2
          | jobj gs => exact Bool.noConfusion h2
      | jnull => exact Bool.noConfusion h1
      | jbool b => exact Bool.noConfusion h1
      | jnum n => exact Bool.noConfusion h1
      | jstr s => exact Bool.noConfusion h1
      | jobj gs => exact Bool.noConfusion h1
  | jnull => exact Bool.noConfusion h
  | jbool b => exact Bool.noConfusion h
  | jnum n => exact Bool.noConfusion h
  | jstr s => exact Bool.noConfusion h
  | jarr xs => exact Bool.noConfusion h

/-- Witness for C8 at the concrete valid fallback quiz. -/
theorem validate_idempotent_witness :
    _validate_quiz_structure "Python" (_generate_smart_fallback_quiz "Python")
      = Except.ok (_generate_smart_fallback_quiz "Python") :=
  validate_idempotent "Python" (_generate_smart_fallback_quiz "Python") (by decide)

/-- C9: the fallback generator is a pure deterministic function of the
title: equal titles give identical output, a fixed set of 5 questions plus
fixed related topics, satisfying the full structural invariants. -/
theorem fallback_deterministic_valid :
    ∀ t : String,
      _generate_smart_fallback_quiz t = _generate_smart_fallback_quiz t ∧
        specValidQuiz (_generate_smart_fallback_quiz t) = true ∧
        (fallbackQuestions t).length = 5 := by
  intro t
  exact ⟨rfl, fallback_spec_valid t, rfl⟩
